import Mathlib

/-!
Verification of the Treatment Scheduling & Adherence Engine of the
Chandrika-Hospital clinic application.

The TypeScript source is shallowly embedded:

* Calendar day keys (the `YYYY-MM-DD` strings produced by
  `toISOString().split('T')[0]`) are modelled as integers counting days; the
  string encoding is order-isomorphic to this counting, so lengths, ordering
  and gap-freeness of date sequences are preserved exactly.
* Weekday derivation (`new Date(d).toLocaleDateString('en-US', ...)`) becomes
  `dayOfWeek`, reduction of the day number modulo 7.
* `Math.random().toString(36)` identifier generation is abstracted as an
  injected id supply `Nat → String`, so the merge and copy operations are
  deterministic functions of their inputs.
* JavaScript truthiness on the optional `filmsUsedCount` field
  (`x.filmsUsedCount && ...`) is `truthyCount`: `undefined` and `0` are falsy.
* React state updates (`setFilmCount`, `setPatients`) become explicit state
  passing on `AppState`; an `alert` that aborts a handler becomes
  `Except.error` of the alert text.
* `Math.round((c / t) * 100)` on non-negative operands is the exact rational
  rounding `(200 * c + t) / (2 * t)` in natural-number arithmetic.
-/

/-- `SessionStatus` from types.ts. -/
inductive SessionStatus where
  | pending
  | completed
  | missed
deriving DecidableEq, Repr

/-- `ServiceType` from types.ts. -/
inductive ServiceType where
  | physiotherapy
  | xray
deriving DecidableEq, Repr

/-- `DayOfWeek` from types.ts. -/
inductive DayOfWeek where
  | monday
  | tuesday
  | wednesday
  | thursday
  | friday
  | saturday
  | sunday
deriving DecidableEq, Repr

/-- The status union of `XrayData.status` from types.ts. -/
inductive XrayStatus where
  | ordered
  | captured
  | reported
deriving DecidableEq, Repr

/-- The status union of `Patient.status` from types.ts. -/
inductive PatientStatus where
  | active
  | completedCourse
  | archived
deriving DecidableEq, Repr

/-- `TherapySession` from types.ts. -/
structure TherapySession where
  id : String
  name : String
  duration : Int
  notes : String
  status : SessionStatus
deriving DecidableEq, Repr

/-- `DailyPlan` from types.ts; `date` is the integer day key. -/
structure DailyPlan where
  id : String
  date : Int
  sessions : List TherapySession
deriving DecidableEq, Repr

/-- `XrayData` from types.ts.  The optional boolean `filmConsumed` is a
`Bool` (the source only ever tests its truthiness, under which `undefined`
and `false` coincide); the optional `filmsUsedCount` stays optional because
the deduction guard distinguishes `undefined`/`0` from a set non-zero count. -/
structure XrayData where
  issue : String
  bodyParts : List String
  status : XrayStatus
  orderDate : Int
  imageUrl : Option String
  aiReport : Option String
  filmConsumed : Bool
  filmsUsedCount : Option Int
deriving DecidableEq, Repr

/-- `Patient` from types.ts. -/
structure Patient where
  id : String
  name : String
  age : Int
  phone : String
  address : String
  condition : String
  registrationDate : Int
  startDate : Int
  endDate : Int
  status : PatientStatus
  serviceType : ServiceType
  selectedDays : List DayOfWeek
  dailyPlans : List DailyPlan
  xrayData : Option XrayData
deriving DecidableEq, Repr

/-- The App component state relevant to the handlers (unnamed/part_013):
`filmCount`, `patients` and `selectedPatientId`. -/
structure AppState where
  filmCount : Int
  patients : List Patient
  selectedPatientId : Option String
deriving DecidableEq, Repr

/-! ## Calendar Expander (PlannerView.tsx, the `dates` memo) -/

/-- The loop body of the `dates` memo: starting at `current`, push one day
per iteration while `current <= end` and the safety counter has not reached
the fuel bound. -/
def expandAux (current endDay : Int) : Nat → List Int
  | 0 => []
  | Nat.succ fuel =>
      if current ≤ endDay then current :: expandAux (current + 1) endDay fuel
      else []

/-- `dates` from PlannerView.tsx: expand `[startDate, endDate]` into day keys,
with the source's `safetyCounter < 365` bound. -/
def expandDates (startDay endDay : Int) : List Int :=
  expandAux startDay endDay 365

theorem expandAux_eq (fuel : Nat) :
    ∀ current endDay : Int,
      expandAux current endDay fuel =
        (List.range (min (endDay - current + 1).toNat fuel)).map
          (fun i : Nat => current + (i : Int)) := by
  induction fuel with
  | zero =>
      intro c e
      simp [expandAux]
  | succ fuel ih =>
      intro c e
      by_cases h : c ≤ e
      · have h1 : (e - c + 1).toNat = (e - (c + 1) + 1).toNat + 1 := by omega
        rw [expandAux, if_pos h, ih (c + 1) e, h1, Nat.succ_min_succ,
          List.range_succ_eq_map]
        simp only [List.map_cons, List.map_map, Nat.cast_zero, add_zero]
        refine congrArg _ ?_
        refine List.map_congr_left ?_
        intro i _
        simp only [Function.comp_apply]
        push_cast
        ring
      · have h0 : (e - c + 1).toNat = 0 := by omega
        rw [expandAux, if_neg h, h0]
        simp

/-- Claim C5: for every pair of dates, if `start ≤ end` then the calendar
expansion is exactly the first `min(daysBetween + 1, 365)` consecutive days
starting at `start` (hence of that length, strictly ascending with no gaps);
if `end < start` it is the empty sequence, without throwing. -/
theorem expandDates_contract (s e : Int) :
    (s ≤ e →
      (expandDates s e).length = min (e - s + 1).toNat 365 ∧
        expandDates s e =
          (List.range (min (e - s + 1).toNat 365)).map (fun i : Nat => s + (i : Int))) ∧
    (e < s → expandDates s e = []) := by
  constructor
  · intro _
    refine ⟨?_, expandAux_eq 365 s e⟩
    rw [expandDates, expandAux_eq 365 s e]
    simp only [List.length_map, List.length_range]
  · intro h
    have h0 : (e - s + 1).toNat = 0 := by omega
    rw [expandDates, expandAux_eq 365 s e, h0]
    simp

/-- Witness for C5 at the concrete ranges `[0, 2]` and `[5, 3]`. -/
theorem expandDates_contract_witness :
    ((0 : Int) ≤ 2 ∧
      ((expandDates 0 2).length = min ((2 : Int) - 0 + 1).toNat 365 ∧
        expandDates 0 2 =
          (List.range (min ((2 : Int) - 0 + 1).toNat 365)).map
            (fun i : Nat => (0 : Int) + (i : Int)))) ∧
    ((3 : Int) < 5 ∧ expandDates 5 3 = []) :=
  ⟨⟨by decide, (expandDates_contract 0 2).1 (by decide)⟩,
   ⟨by decide, (expandDates_contract 5 3).2 (by decide)⟩⟩

/-! ## Session Toggle (PlannerView.tsx, the Verify Completion button) -/

/-- The Verify Completion button routed through `handleUpdateSession`:
`status: session.status === 'completed' ? 'pending' : 'completed'`. -/
def toggleCompleted (s : TherapySession) : TherapySession :=
  if s.status = SessionStatus.completed then { s with status := SessionStatus.pending }
  else { s with status := SessionStatus.completed }

/-- A session in status `missed`, as left by the Record Absence button. -/
def missedSession : TherapySession :=
  { id := "s1", name := "TENS Therapy", duration := 15, notes := "",
    status := SessionStatus.missed }

/-- Claim C6, counterexample: the toggle law fails at a `missed` session —
toggling Verify Completion twice lands on `pending`, not back on `missed`. -/
theorem toggleCompleted_not_involutive :
    toggleCompleted (toggleCompleted missedSession) ≠ missedSession := by
  decide

/-- Claim C6, amended: double-toggle restores the session only when its
status is not `missed`; a `missed` session toggles to `completed` (not
`pending`), and a second toggle then lands on `pending`. -/
theorem toggleCompleted_contract (s : TherapySession) :
    (s.status ≠ SessionStatus.missed → toggleCompleted (toggleCompleted s) = s) ∧
    (s.status = SessionStatus.missed →
      (toggleCompleted s).status = SessionStatus.completed ∧
        toggleCompleted (toggleCompleted s) = { s with status := SessionStatus.pending }) := by
  obtain ⟨i, n, d, t, st⟩ := s
  cases st <;> simp [toggleCompleted]

/-- Witness for C6 at a `pending` session and at the `missed` session. -/
theorem toggleCompleted_contract_witness :
    (({ missedSession with status := SessionStatus.pending } : TherapySession).status ≠
        SessionStatus.missed ∧
      toggleCompleted (toggleCompleted { missedSession with status := SessionStatus.pending }) =
        { missedSession with status := SessionStatus.pending }) ∧
    (missedSession.status = SessionStatus.missed ∧
      (toggleCompleted missedSession).status = SessionStatus.completed ∧
        toggleCompleted (toggleCompleted missedSession) =
          { missedSession with status := SessionStatus.pending }) :=
  ⟨⟨by decide,
    (toggleCompleted_contract { missedSession with status := SessionStatus.pending }).1
      (by decide)⟩,
   ⟨rfl, ((toggleCompleted_contract missedSession).2 rfl).1,
    ((toggleCompleted_contract missedSession).2 rfl).2⟩⟩

/-! ## Adherence Calculator (Dashboard.tsx and unnamed/part_006) -/

/-- Weekday of an integer day key: the embedding of
`new Date(date).toLocaleDateString('en-US', \x7b weekday: 'long' \x7d)`,
with day 0 fixed as a Monday. -/
def dayOfWeek (d : Int) : DayOfWeek :=
  match (d.emod 7).toNat with
  | 0 => DayOfWeek.monday
  | 1 => DayOfWeek.tuesday
  | 2 => DayOfWeek.wednesday
  | 3 => DayOfWeek.thursday
  | 4 => DayOfWeek.friday
  | 5 => DayOfWeek.saturday
  | _ => DayOfWeek.sunday

/-- `Math.round((completed / total) * 100)` on non-negative operands, as exact
rational rounding: `floor(100 * c / t + 1 / 2)`. -/
def jsRound100 (c t : Nat) : Nat := (200 * c + t) / (2 * t)

/-- `reduce((acc, plan) => acc + plan.sessions.length, 0)`. -/
def sumSessions (plans : List DailyPlan) : Nat :=
  plans.foldl (fun acc pl => acc + pl.sessions.length) 0

/-- `reduce((acc, plan) => acc + plan.sessions.filter(s => s.status === 'completed').length, 0)`. -/
def completedCount (plans : List DailyPlan) : Nat :=
  plans.foldl
    (fun acc pl =>
      acc + (pl.sessions.filter (fun s => decide (s.status = SessionStatus.completed))).length)
    0

/-- `calculateProgress` from components/Dashboard.tsx: the x-ray stage mapping,
then the completion percentage over ALL daily plans (no weekday restriction). -/
def calculateProgress (p : Patient) : Nat :=
  if p.serviceType = ServiceType.xray then
    match p.xrayData with
    | none => 0
    | some x =>
      if x.status = XrayStatus.reported then 100
      else if x.status = XrayStatus.captured then 50
      else 10
  else
    let total := sumSessions p.dailyPlans
    if total = 0 then 0
    else jsRound100 (completedCount p.dailyPlans) total

/-- The `relevantPlans` filter of `calculateProgress` from unnamed/part_006:
keep a plan when the patient's `selectedDays` is empty/unset or contains the
plan's weekday. -/
def scheduledFilter (p : Patient) : List DailyPlan :=
  p.dailyPlans.filter (fun plan =>
    decide (p.selectedDays = []) || decide (dayOfWeek plan.date ∈ p.selectedDays))

/-- `calculateProgress` from unnamed/part_006: as components/Dashboard.tsx but
with the physiotherapy ratio restricted to plans on scheduled weekdays. -/
def calculateProgressScheduled (p : Patient) : Nat :=
  if p.serviceType = ServiceType.xray then
    match p.xrayData with
    | none => 0
    | some x =>
      if x.status = XrayStatus.reported then 100
      else if x.status = XrayStatus.captured then 50
      else 10
  else
    let rel := scheduledFilter p
    let total := sumSessions rel
    if total = 0 then 0
    else jsRound100 (completedCount rel) total

/-- A physiotherapy patient scheduled Monday/Wednesday whose only plan sits on
a Tuesday (day key 1) and holds one completed session. -/
def tuesdayPatient : Patient :=
  { id := "pt1", name := "A", age := 40, phone := "", address := "",
    condition := "Knee", registrationDate := 0, startDate := 0, endDate := 2,
    status := PatientStatus.active, serviceType := ServiceType.physiotherapy,
    selectedDays := [DayOfWeek.monday, DayOfWeek.wednesday],
    dailyPlans :=
      [{ id := "pl1", date := 1,
         sessions :=
           [{ id := "s1", name := "Laser Therapy", duration := 15, notes := "",
              status := SessionStatus.completed }] }],
    xrayData := none }

/-- Claim C4, counterexample: the `calculateProgress` of components/Dashboard.tsx
applies no weekday restriction — for the Monday/Wednesday patient whose only
(completed) session sits on a Tuesday it reports 100, while the claimed
restriction (implemented only in the unnamed/part_006 variant) demands 0. -/
theorem calculateProgress_ignores_weekdays :
    calculateProgress tuesdayPatient = 100 ∧
      calculateProgressScheduled tuesdayPatient = 0 := by
  constructor <;> decide

/-- Claim C4, amended: the weekday restriction holds for the part_006 variant
(`calculateProgressScheduled`): an empty scheduled-weekday set means all plans
count (it agrees with the unrestricted computation), a plan on a weekday
outside a non-empty set contributes to neither numerator nor denominator, and
zero relevant sessions give 0; the components/Dashboard.tsx variant
(`calculateProgress`) applies no restriction — it equals the scheduled
computation with the restriction emptied. -/
theorem calculateProgressScheduled_contract (p : Patient) (plan : DailyPlan) :
    p.serviceType = ServiceType.physiotherapy →
    ((p.selectedDays = [] → calculateProgressScheduled p = calculateProgress p) ∧
     (p.selectedDays ≠ [] → dayOfWeek plan.date ∉ p.selectedDays →
        calculateProgressScheduled { p with dailyPlans := plan :: p.dailyPlans } =
          calculateProgressScheduled p) ∧
     (sumSessions (scheduledFilter p) = 0 → calculateProgressScheduled p = 0) ∧
     calculateProgress p = calculateProgressScheduled { p with selectedDays := [] }) := by
  intro hphys
  have hx : ¬ p.serviceType = ServiceType.xray := by rw [hphys]; intro hc; cases hc
  refine ⟨?_, ?_, ?_, ?_⟩
  · intro hsel
    rw [calculateProgressScheduled, calculateProgress, if_neg hx, if_neg hx]
    have : scheduledFilter p = p.dailyPlans := by
      simp [scheduledFilter, hsel]
    rw [this]
  · intro hne hnot
    rw [calculateProgressScheduled, calculateProgressScheduled, if_neg hx, if_neg hx]
    have : scheduledFilter { p with dailyPlans := plan :: p.dailyPlans } =
        scheduledFilter p := by
      simp [scheduledFilter, List.filter_cons, hne, hnot]
    rw [this]
  · intro hz
    rw [calculateProgressScheduled, if_neg hx]
    show (if sumSessions (scheduledFilter p) = 0 then (0 : Nat)
        else jsRound100 (completedCount (scheduledFilter p))
          (sumSessions (scheduledFilter p))) = 0
    rw [if_pos hz]
  · rw [calculateProgressScheduled, calculateProgress, if_neg hx, if_neg hx]
    have : scheduledFilter { p with selectedDays := [] } = p.dailyPlans := by
      simp [scheduledFilter]
    rw [this]

/-- Witness for the amended C4 at the Monday/Wednesday Tuesday-plan patient
and a fresh Tuesday plan. -/
theorem calculateProgressScheduled_contract_witness :
    tuesdayPatient.serviceType = ServiceType.physiotherapy ∧
    ((tuesdayPatient.selectedDays = [] →
        calculateProgressScheduled tuesdayPatient = calculateProgress tuesdayPatient) ∧
     (tuesdayPatient.selectedDays ≠ [] →
        dayOfWeek (1 : Int) ∉ tuesdayPatient.selectedDays →
        calculateProgressScheduled
            { tuesdayPatient with
                dailyPlans := { id := "pl2", date := 1, sessions := [] } ::
                  tuesdayPatient.dailyPlans } =
          calculateProgressScheduled tuesdayPatient) ∧
     (sumSessions (scheduledFilter tuesdayPatient) = 0 →
        calculateProgressScheduled tuesdayPatient = 0) ∧
     calculateProgress tuesdayPatient =
       calculateProgressScheduled { tuesdayPatient with selectedDays := [] }) :=
  ⟨rfl,
    calculateProgressScheduled_contract tuesdayPatient
      { id := "pl2", date := 1, sessions := [] } rfl⟩

/-- The spec's discrete stage mapping for an x-ray patient, stated from the
spec's words for comparison with the code's progress functions:
`ordered → 10`, `captured → 50`, `reported → 100`, absent order → `0`. -/
def specXrayStagePct (o : Option XrayData) : Nat :=
  match o with
  | none => 0
  | some x =>
    match x.status with
    | XrayStatus.ordered => 10
    | XrayStatus.captured => 50
    | XrayStatus.reported => 100

/-- Claim C8: for every x-ray patient, both dashboard progress variants
realise exactly the spec's stage mapping 10/50/100 with 0 for a missing
order. -/
theorem calculateProgress_xray_stages (p : Patient) :
    p.serviceType = ServiceType.xray →
    calculateProgress p = specXrayStagePct p.xrayData ∧
      calculateProgressScheduled p = specXrayStagePct p.xrayData := by
  intro hx
  rw [calculateProgress, calculateProgressScheduled, if_pos hx, if_pos hx]
  match hxd : p.xrayData with
  | none => exact ⟨rfl, rfl⟩
  | some x =>
    cases hst : x.status <;> simp [specXrayStagePct, hst]

/-- Witness for C8 at a concrete x-ray patient with a captured order. -/
theorem calculateProgress_xray_stages_witness :
    ({ tuesdayPatient with
        serviceType := ServiceType.xray,
        xrayData := some
          { issue := "pain", bodyParts := ["Knee AP"], status := XrayStatus.captured,
            orderDate := 0, imageUrl := some "img", aiReport := none,
            filmConsumed := true, filmsUsedCount := some 2 } } : Patient).serviceType =
        ServiceType.xray ∧
    (calculateProgress
        { tuesdayPatient with
            serviceType := ServiceType.xray,
            xrayData := some
              { issue := "pain", bodyParts := ["Knee AP"], status := XrayStatus.captured,
                orderDate := 0, imageUrl := some "img", aiReport := none,
                filmConsumed := true, filmsUsedCount := some 2 } } =
      specXrayStagePct
        (some
          { issue := "pain", bodyParts := ["Knee AP"], status := XrayStatus.captured,
            orderDate := 0, imageUrl := some "img", aiReport := none,
            filmConsumed := true, filmsUsedCount := some 2 }) ∧
      calculateProgressScheduled
          { tuesdayPatient with
              serviceType := ServiceType.xray,
              xrayData := some
                { issue := "pain", bodyParts := ["Knee AP"], status := XrayStatus.captured,
                  orderDate := 0, imageUrl := some "img", aiReport := none,
                  filmConsumed := true, filmsUsedCount := some 2 } } =
        specXrayStagePct
          (some
            { issue := "pain", bodyParts := ["Knee AP"], status := XrayStatus.captured,
              orderDate := 0, imageUrl := some "img", aiReport := none,
              filmConsumed := true, filmsUsedCount := some 2 })) :=
  ⟨rfl, calculateProgress_xray_stages _ rfl⟩

/-! ## Consumable Ledger restock (Dashboard.tsx Add button + handleAddFilms) -/

/-- `handleAddFilms` from unnamed/part_013: add the count to the ledger. -/
def handleAddFilms (filmCount count : Int) : Int := filmCount + count

/-- The Restock Add button of Dashboard.tsx: parse the input field (`none`
models a `parseInt` that yields `NaN`) and call `onAddFilms` only when the
parsed count is positive. -/
def restockClick (filmCount : Int) (input : Option Int) : Int :=
  match input with
  | none => filmCount
  | some c => if 0 < c then handleAddFilms filmCount c else filmCount

/-- Claim C9: a positive restock amount increases the film counter by exactly
that amount; a non-positive or unparseable amount is rejected as a no-op; the
restock path never decrements the counter. -/
theorem restockClick_contract (fc c : Int) (inp : Option Int) :
    (0 < c → restockClick fc (some c) = fc + c) ∧
    (c ≤ 0 → restockClick fc (some c) = fc) ∧
    restockClick fc none = fc ∧
    fc ≤ restockClick fc inp := by
  refine ⟨fun h => ?_, fun h => ?_, rfl, ?_⟩
  · rw [restockClick, if_pos h, handleAddFilms]
  · rw [restockClick, if_neg (by omega)]
  · match inp with
    | none => exact le_refl fc
    | some c' =>
      rw [restockClick]
      split
      · rw [handleAddFilms]; omega
      · exact le_refl fc

/-- Witness for C9 at counter 10 with inputs 5 and -3. -/
theorem restockClick_contract_witness :
    ((0 : Int) < 5 ∧ restockClick 10 (some 5) = 10 + 5) ∧
    ((-3 : Int) ≤ 0 ∧ restockClick 10 (some (-3)) = 10) ∧
    restockClick 10 none = 10 ∧
    (10 : Int) ≤ restockClick 10 (some 5) :=
  ⟨⟨by decide, (restockClick_contract 10 5 (some 5)).1 (by decide)⟩,
   ⟨by decide, (restockClick_contract 10 (-3) (some 5)).2.1 (by decide)⟩,
   (restockClick_contract 10 5 (some 5)).2.2.1,
   (restockClick_contract 10 5 (some 5)).2.2.2⟩

/-! ## Radiology handlers (unnamed/part_013) -/

/-- JavaScript truthiness of the optional `filmsUsedCount`: `undefined` and
`0` are falsy, any other number is truthy. -/
def truthyCount : Option Int → Bool
  | none => false
  | some n => n != 0

/-- `handleUpdateXray` from unnamed/part_013: when the incoming order status
is away from `ordered`, `filmsUsedCount` is truthy and `filmConsumed` is not
yet true, deduct `filmsUsedCount` from the film counter clamped at 0 and mark
the stored order `filmConsumed`; in every case store the order on the
selected patient. -/
def handleUpdateXray (st : AppState) (x : XrayData) : AppState :=
  match st.selectedPatientId with
  | none => st
  | some sel =>
    if x.status ≠ XrayStatus.ordered ∧ truthyCount x.filmsUsedCount = true ∧
        x.filmConsumed = false then
      { filmCount := max 0 (st.filmCount - x.filmsUsedCount.getD 0),
        patients := st.patients.map (fun p =>
          if p.id = sel then
            { p with xrayData := some { x with filmConsumed := true } }
          else p),
        selectedPatientId := st.selectedPatientId }
    else
      { filmCount := st.filmCount,
        patients := st.patients.map (fun p =>
          if p.id = sel then { p with xrayData := some x } else p),
        selectedPatientId := st.selectedPatientId }

/-- `handleUpdatePlan` from unnamed/part_013: replace the selected patient's
`dailyPlans`, leaving every other patient untouched. -/
def handleUpdatePlan (st : AppState) (updatedPlans : List DailyPlan) : AppState :=
  match st.selectedPatientId with
  | none => st
  | some sel =>
    { st with
      patients := st.patients.map (fun p =>
        if p.id = sel then { p with dailyPlans := updatedPlans } else p) }

theorem handleUpdateXray_selId (st : AppState) (x : XrayData) :
    (handleUpdateXray st x).selectedPatientId = st.selectedPatientId := by
  cases h : st.selectedPatientId with
  | none => simp [handleUpdateXray, h]
  | some sel =>
    simp only [handleUpdateXray, h]
    split <;> simp [h]

/-- Claim C1: an order update moving the status away from `ordered` with a
truthy `filmsUsedCount` and `filmConsumed` still false deducts exactly
`filmsUsedCount` clamped at a floor of 0 and stores the order with
`filmConsumed = true`; any later update whose order already carries
`filmConsumed = true` leaves the film counter unchanged, so the deduction
happens at most once per order. -/
theorem handleUpdateXray_deducts_once (st : AppState) (sel : String)
    (x x2 : XrayData) (n : Int) :
    st.selectedPatientId = some sel →
    x.status ≠ XrayStatus.ordered →
    x.filmsUsedCount = some n →
    n ≠ 0 →
    x.filmConsumed = false →
    x2.filmConsumed = true →
    (handleUpdateXray st x).filmCount = max 0 (st.filmCount - n) ∧
    (handleUpdateXray st x).patients =
      st.patients.map (fun p =>
        if p.id = sel then { p with xrayData := some { x with filmConsumed := true } }
        else p) ∧
    (handleUpdateXray (handleUpdateXray st x) x2).filmCount =
      (handleUpdateXray st x).filmCount := by
  intro hsel hstat hcnt hn hcons hcons2
  have ht : truthyCount x.filmsUsedCount = true := by
    rw [hcnt]
    simpa [truthyCount, bne_iff_ne] using hn
  have hg : x.status ≠ XrayStatus.ordered ∧ truthyCount x.filmsUsedCount = true ∧
      x.filmConsumed = false := ⟨hstat, ht, hcons⟩
  have h1 : handleUpdateXray st x =
      { filmCount := max 0 (st.filmCount - x.filmsUsedCount.getD 0),
        patients := st.patients.map (fun p =>
          if p.id = sel then
            { p with xrayData := some { x with filmConsumed := true } }
          else p),
        selectedPatientId := st.selectedPatientId } := by
    simp only [handleUpdateXray, hsel]
    rw [if_pos hg]
  refine ⟨?_, ?_, ?_⟩
  · rw [h1, hcnt]; rfl
  · rw [h1]
  · have hsel2 : (handleUpdateXray st x).selectedPatientId = some sel := by
      rw [handleUpdateXray_selId, hsel]
    have hneg : ¬ (x2.status ≠ XrayStatus.ordered ∧ truthyCount x2.filmsUsedCount = true ∧
        x2.filmConsumed = false) := by
      intro hc
      rw [hcons2] at hc
      exact Bool.noConfusion hc.2.2
    generalize handleUpdateXray st x = st2 at hsel2 ⊢
    simp only [handleUpdateXray, hsel2]
    rw [if_neg hneg]

/-- An x-ray order transitioning to `captured` with 3 films planned and the
consumption flag not yet set. -/
def xrayOrderEx : XrayData :=
  { issue := "pain", bodyParts := ["Knee AP"], status := XrayStatus.captured,
    orderDate := 0, imageUrl := some "img", aiReport := none,
    filmConsumed := false, filmsUsedCount := some 3 }

/-- App state with 5 films, one selected patient. -/
def appStateEx : AppState :=
  { filmCount := 5, patients := [tuesdayPatient], selectedPatientId := some "pt1" }

/-- Witness for C1: capturing with 3 planned films at a ledger of 5 deducts to
2, marks the stored order consumed, and a follow-up update of the consumed
order leaves the counter unchanged. -/
theorem handleUpdateXray_deducts_once_witness :
    appStateEx.selectedPatientId = some "pt1" ∧
    xrayOrderEx.status ≠ XrayStatus.ordered ∧
    xrayOrderEx.filmsUsedCount = some 3 ∧
    (3 : Int) ≠ 0 ∧
    xrayOrderEx.filmConsumed = false ∧
    ({ xrayOrderEx with filmConsumed := true } : XrayData).filmConsumed = true ∧
    ((handleUpdateXray appStateEx xrayOrderEx).filmCount =
        max 0 (appStateEx.filmCount - 3) ∧
      (handleUpdateXray appStateEx xrayOrderEx).patients =
        appStateEx.patients.map (fun p =>
          if p.id = "pt1" then
            { p with xrayData := some { xrayOrderEx with filmConsumed := true } }
          else p) ∧
      (handleUpdateXray (handleUpdateXray appStateEx xrayOrderEx)
            { xrayOrderEx with filmConsumed := true }).filmCount =
        (handleUpdateXray appStateEx xrayOrderEx).filmCount) :=
  ⟨rfl, by decide, rfl, by decide, rfl, rfl,
    handleUpdateXray_deducts_once appStateEx "pt1" xrayOrderEx
      { xrayOrderEx with filmConsumed := true } 3 rfl (by decide) rfl (by decide)
      rfl rfl⟩

/-! ## Capture gating (XrayView.tsx handleFileUpload) -/

/-- The alert text raised when stock is below the selected film count. -/
def inventoryAlert (avail sel : Int) : String :=
  "Inventory Alert: Only " ++ toString avail ++ " films left. Selected: " ++
    toString sel ++ "."

/-- `handleFileUpload` from XrayView.tsx: refuse (alert and return) when
`availableFilms < filmsToUse`; otherwise produce the captured order carrying
the image and the planned film count. -/
def handleFileUpload (availableFilms filmsToUse : Int) (xray : XrayData)
    (issue imageData : String) : Except String XrayData :=
  if availableFilms < filmsToUse then
    Except.error (inventoryAlert availableFilms filmsToUse)
  else
    Except.ok
      { xray with
          issue := issue
          imageUrl := some imageData
          status := XrayStatus.captured
          filmsUsedCount := some filmsToUse }

/-- A capture attempt end to end: XrayView's upload guard, then — only when
the guard passes — the App's `handleUpdateXray` with the captured order. -/
def captureAttempt (st : AppState) (filmsToUse : Int) (xray : XrayData)
    (issue imageData : String) : AppState :=
  match handleFileUpload st.filmCount filmsToUse xray issue imageData with
  | Except.error _ => st
  | Except.ok upd => handleUpdateXray st upd

/-- Claim C2: when the ledger holds fewer films than the capture would use,
the upload is refused with a surfaced alert and the whole attempt leaves the
application state untouched — the order stays as stored (still `ordered`), no
image is attached, and the film counter is unchanged. -/
theorem captureAttempt_refused (st : AppState) (f : Int) (xray : XrayData)
    (issue imageData : String) :
    st.filmCount < f →
    handleFileUpload st.filmCount f xray issue imageData =
      Except.error (inventoryAlert st.filmCount f) ∧
    captureAttempt st f xray issue imageData = st := by
  intro h
  have he : handleFileUpload st.filmCount f xray issue imageData =
      Except.error (inventoryAlert st.filmCount f) := by
    rw [handleFileUpload, if_pos h]
  refine ⟨he, ?_⟩
  simp only [captureAttempt, he]

/-- Witness for C2: 3 films requested against a ledger of 2. -/
theorem captureAttempt_refused_witness :
    ({ appStateEx with filmCount := 2 } : AppState).filmCount < 3 ∧
    (handleFileUpload ({ appStateEx with filmCount := 2 } : AppState).filmCount 3
        { xrayOrderEx with status := XrayStatus.ordered, filmConsumed := false }
        "pain" "img" =
      Except.error
        (inventoryAlert ({ appStateEx with filmCount := 2 } : AppState).filmCount 3) ∧
      captureAttempt { appStateEx with filmCount := 2 } 3
          { xrayOrderEx with status := XrayStatus.ordered, filmConsumed := false }
          "pain" "img" =
        { appStateEx with filmCount := 2 }) :=
  ⟨by decide,
    captureAttempt_refused { appStateEx with filmCount := 2 } 3
      { xrayOrderEx with status := XrayStatus.ordered, filmConsumed := false }
      "pain" "img" (by decide)⟩

/-! ## Frame property of the patient-scoped handlers (unnamed/part_013) -/

/-- Claim C10: `handleUpdatePlan` and `handleUpdateXray` touch only the
record whose id is the selected patient id: every other patient in the list
is returned unchanged, and the plan update rewrites only `dailyPlans` (the
x-ray update only `xrayData`, stored either as passed or with the
consumption flag set). -/
theorem patientHandlers_frame (st : AppState) (sel : String)
    (plans2 : List DailyPlan) (x2 : XrayData) (i : Nat) (p : Patient) :
    st.selectedPatientId = some sel →
    st.patients.get? i = some p →
    ((p.id ≠ sel →
        (handleUpdatePlan st plans2).patients.get? i = some p ∧
          (handleUpdateXray st x2).patients.get? i = some p) ∧
     (p.id = sel →
        (handleUpdatePlan st plans2).patients.get? i =
            some { p with dailyPlans := plans2 } ∧
          ((handleUpdateXray st x2).patients.get? i =
              some { p with xrayData := some x2 } ∨
            (handleUpdateXray st x2).patients.get? i =
              some { p with xrayData := some { x2 with filmConsumed := true } }))) := by
  intro hsel hp
  have hplan : (handleUpdatePlan st plans2).patients =
      st.patients.map (fun q => if q.id = sel then { q with dailyPlans := plans2 } else q) := by
    simp only [handleUpdatePlan, hsel]
  by_cases hg : x2.status ≠ XrayStatus.ordered ∧ truthyCount x2.filmsUsedCount = true ∧
      x2.filmConsumed = false
  · have hxr : (handleUpdateXray st x2).patients =
        st.patients.map (fun q =>
          if q.id = sel then { q with xrayData := some { x2 with filmConsumed := true } }
          else q) := by
      simp only [handleUpdateXray, hsel]
      rw [if_pos hg]
    refine ⟨fun hne => ⟨?_, ?_⟩, fun heq => ⟨?_, Or.inr ?_⟩⟩
    · rw [hplan, List.get?_map, hp]
      simp [hne]
    · rw [hxr, List.get?_map, hp]
      simp [hne]
    · rw [hplan, List.get?_map, hp]
      simp [heq]
    · rw [hxr, List.get?_map, hp]
      simp [heq]
  · have hxr : (handleUpdateXray st x2).patients =
        st.patients.map (fun q =>
          if q.id = sel then { q with xrayData := some x2 } else q) := by
      simp only [handleUpdateXray, hsel]
      rw [if_neg hg]
    refine ⟨fun hne => ⟨?_, ?_⟩, fun heq => ⟨?_, Or.inl ?_⟩⟩
    · rw [hplan, List.get?_map, hp]
      simp [hne]
    · rw [hxr, List.get?_map, hp]
      simp [hne]
    · rw [hplan, List.get?_map, hp]
      simp [heq]
    · rw [hxr, List.get?_map, hp]
      simp [heq]

/-- A second, unselected patient. -/
def otherPatient : Patient := { tuesdayPatient with id := "pt2", name := "B" }

/-- App state holding the selected patient and one other. -/
def appStateTwo : AppState :=
  { filmCount := 5, patients := [tuesdayPatient, otherPatient],
    selectedPatientId := some "pt1" }

/-- Witness for C10 at the unselected patient (index 1). -/
theorem patientHandlers_frame_witness :
    appStateTwo.selectedPatientId = some "pt1" ∧
    appStateTwo.patients.get? 1 = some otherPatient ∧
    ((otherPatient.id ≠ "pt1" →
        (handleUpdatePlan appStateTwo []).patients.get? 1 = some otherPatient ∧
          (handleUpdateXray appStateTwo xrayOrderEx).patients.get? 1 =
            some otherPatient) ∧
     (otherPatient.id = "pt1" →
        (handleUpdatePlan appStateTwo []).patients.get? 1 =
            some { otherPatient with dailyPlans := [] } ∧
          ((handleUpdateXray appStateTwo xrayOrderEx).patients.get? 1 =
              some { otherPatient with xrayData := some xrayOrderEx } ∨
            (handleUpdateXray appStateTwo xrayOrderEx).patients.get? 1 =
              some { otherPatient with
                       xrayData := some { xrayOrderEx with filmConsumed := true } }))) :=
  ⟨rfl, rfl, patientHandlers_frame appStateTwo "pt1" [] xrayOrderEx 1 otherPatient rfl rfl⟩

/-! ## Session Merge Engine (PlannerView.tsx handleCopyPrevious / handleSuggestAI) -/

/-- `indexOf` search: index of the first list entry matching the predicate. -/
def findIdxAux (pred : Int → Bool) : List Int → Option Nat
  | [] => none
  | d :: rest => if pred d then some 0 else (findIdxAux pred rest).map (· + 1)

/-- `dates.indexOf(selectedDate)` with JavaScript's `-1` for a missing entry. -/
def indexOfInt (l : List Int) (x : Int) : Int :=
  match findIdxAux (fun d => d == x) l with
  | some k => (k : Int)
  | none => -1

/-- `dates[i]` for a possibly negative index: `undefined` (`none`) outside
the array. -/
def getAt (l : List Int) (i : Int) : Option Int :=
  if 0 ≤ i then l.get? i.toNat else none

/-- `dailyPlans.find(p => p.date === d)`: the first plan with the date. -/
def findPlan (d : Int) : List DailyPlan → Option DailyPlan
  | [] => none
  | p :: rest => if p.date == d then some p else findPlan d rest

/-- The per-session clone of `handleCopyPrevious`: spread the session, give
it a fresh identifier and reset the status to `pending`. -/
def cloneSession (newId : String) (s : TherapySession) : TherapySession :=
  { s with id := newId, status := SessionStatus.pending }

/-- `handleCopyPrevious` from PlannerView.tsx: no-op when the selected date
is absent or first in the expanded calendar or the preceding date has no
plan; otherwise clone the preceding plan's sessions (fresh ids, `pending`)
and have them fully replace the selected date's session list, creating the
plan if absent. -/
def handleCopyPrevious (idSupply : Nat → String) (plans : List DailyPlan)
    (dates : List Int) (selectedDate : Int) : List DailyPlan :=
  match findIdxAux (fun d => d == selectedDate) dates with
  | none => plans
  | some idx =>
    if idx = 0 then plans
    else
      match dates.get? (idx - 1) with
      | none => plans
      | some prevDate =>
        match findPlan prevDate plans with
        | none => plans
        | some prevPlan =>
          let newSessions := prevPlan.sessions.mapIdx
            (fun i s => cloneSession (idSupply i) s)
          let replaced := plans.map (fun p =>
            if p.date == selectedDate then { p with sessions := newSessions } else p)
          if (findPlan selectedDate replaced).isSome then replaced
          else
            replaced ++
              [{ id := idSupply prevPlan.sessions.length, date := selectedDate,
                 sessions := newSessions }]

/-- One row of the AI suggestion service response. -/
structure SuggestedSession where
  name : String
  duration : Int
  notes : String
deriving DecidableEq, Repr

/-- One suggested day of the AI response. -/
structure SuggestedDay where
  sessions : List SuggestedSession
deriving DecidableEq, Repr

/-- Materialise suggested sessions with fresh identifiers and `pending`
status, as `handleSuggestAI` does. -/
def freshSessions (idSupply : Nat → String) (ss : List SuggestedSession) :
    List TherapySession :=
  ss.mapIdx (fun j s =>
    { id := idSupply j, name := s.name, duration := s.duration, notes := s.notes,
      status := SessionStatus.pending })

/-- The `findIndex` + assignment of `handleSuggestAI`: append the new
sessions onto the first plan with the given date; `none` when no plan has
that date. -/
def appendAtDate (d : Int) (newSess : List TherapySession) :
    List DailyPlan → Option (List DailyPlan)
  | [] => none
  | p :: rest =>
    if p.date == d then some ({ p with sessions := p.sessions ++ newSess } :: rest)
    else (appendAtDate d newSess rest).map (fun r => p :: r)

/-- One iteration of the `handleSuggestAI` loop for a resolved target date:
append onto the existing plan for that date, or push a brand-new plan. -/
def mergeOne (idSupply : Nat → String) (planId : String) (plans : List DailyPlan)
    (d : Int) (day : SuggestedDay) : List DailyPlan :=
  let sess := freshSessions idSupply day.sessions
  match appendAtDate d sess plans with
  | some plans2 => plans2
  | none => plans ++ [{ id := planId, date := d, sessions := sess }]

/-- The `aiSuggestion.forEach((suggestedDay, i) => ...)` loop: the i-th
suggested day targets `dates[startIndex + i]`; an out-of-range target is
skipped. -/
def mergeAll (idSupply : Nat → Nat → String) (planIds : Nat → String)
    (dates : List Int) (startIndex : Int) :
    Nat → List DailyPlan → List SuggestedDay → List DailyPlan
  | _, plans, [] => plans
  | i, plans, day :: rest =>
    let plans2 :=
      match getAt dates (startIndex + (i : Int)) with
      | none => plans
      | some d => mergeOne (idSupply i) (planIds i) plans d day
    mergeAll idSupply planIds dates startIndex (i + 1) plans2 rest

/-- `handleSuggestAI` from PlannerView.tsx: an empty suggestion mutates
nothing; otherwise run the merge loop starting at the selected date's index. -/
def handleSuggestAI (idSupply : Nat → Nat → String) (planIds : Nat → String)
    (plans : List DailyPlan) (dates : List Int) (selectedDate : Int)
    (suggestion : List SuggestedDay) : List DailyPlan :=
  if suggestion.isEmpty then plans
  else mergeAll idSupply planIds dates (indexOfInt dates selectedDate) 0 plans suggestion

/-- Session count of the (first) plan for a date, 0 when none exists. -/
def sessionCountAt (plans : List DailyPlan) (d : Int) : Nat :=
  match findPlan d plans with
  | some p => p.sessions.length
  | none => 0

/-- Session list of the (first) plan for a date. -/
def sessionsAtDate (plans : List DailyPlan) (d : Int) : Option (List TherapySession) :=
  (findPlan d plans).map (fun p => p.sessions)

/-- A plan for day 0 already holding one Laser Therapy session. -/
def laserPlan : DailyPlan :=
  { id := "p1", date := 0,
    sessions :=
      [{ id := "s1", name := "Laser Therapy", duration := 15, notes := "",
         status := SessionStatus.pending }] }

/-- An AI suggestion proposing Laser Therapy again for the same day. -/
def laserDay : SuggestedDay :=
  { sessions := [{ name := "Laser Therapy", duration := 15, notes := "" }] }

/-- Claim C3, counterexample: re-applying a suggestion whose therapy name
"Laser Therapy" already exists on the date does NOT leave the session count
unchanged — `handleSuggestAI` appends unconditionally (1 session becomes 2);
the claimed skip-on-duplicate-name logic is absent from the source. -/
theorem handleSuggestAI_no_dedup :
    sessionCountAt
        (handleSuggestAI (fun _ j => "n" ++ toString j) (fun _ => "np")
          [laserPlan] [0] 0 [laserDay]) 0 = 2 ∧
      sessionCountAt [laserPlan] 0 = 1 := by
  constructor <;> decide

theorem findPlan_append_single (d : Int) (l : List DailyPlan) (x : DailyPlan)
    (h : findPlan d l = none) :
    findPlan d (l ++ [x]) = if x.date == d then some x else none := by
  induction l with
  | nil => rfl
  | cons p rest ih =>
    rw [findPlan] at h
    by_cases hb : (p.date == d) = true
    · rw [if_pos hb] at h
      exact Option.noConfusion h
    · rw [if_neg hb] at h
      rw [List.cons_append, findPlan, if_neg hb, ih h]

theorem findPlan_replace (d : Int) (ns : List TherapySession) (plans : List DailyPlan) :
    findPlan d (plans.map (fun p => if p.date == d then { p with sessions := ns } else p)) =
      (findPlan d plans).map (fun p => { p with sessions := ns }) := by
  induction plans with
  | nil => rfl
  | cons p rest ih =>
    by_cases hb : (p.date == d) = true
    · simp only [List.map_cons, if_pos hb, findPlan]
      rfl
    · simp only [List.map_cons, if_neg hb, findPlan]
      exact ih

theorem appendAtDate_none (d : Int) (ns : List TherapySession) :
    ∀ plans : List DailyPlan, findPlan d plans = none →
      appendAtDate d ns plans = none := by
  intro plans
  induction plans with
  | nil => intro _; rfl
  | cons p rest ih =>
    intro h
    rw [findPlan] at h
    by_cases hb : (p.date == d) = true
    · rw [if_pos hb] at h
      exact Option.noConfusion h
    · rw [if_neg hb] at h
      rw [appendAtDate, if_neg hb, ih h]
      rfl

theorem appendAtDate_some (d : Int) (ns : List TherapySession) :
    ∀ (plans : List DailyPlan) (q : DailyPlan), findPlan d plans = some q →
      ∃ r, appendAtDate d ns plans = some r ∧
        findPlan d r = some { q with sessions := q.sessions ++ ns } := by
  intro plans
  induction plans with
  | nil => intro q h; exact Option.noConfusion h
  | cons p rest ih =>
    intro q h
    rw [findPlan] at h
    by_cases hb : (p.date == d) = true
    · rw [if_pos hb] at h
      obtain rfl : p = q := Option.some.inj h
      refine ⟨{ p with sessions := p.sessions ++ ns } :: rest, ?_, ?_⟩
      · rw [appendAtDate, if_pos hb]
      · rw [findPlan, if_pos hb]
    · rw [if_neg hb] at h
      obtain ⟨r, hr, hf⟩ := ih q h
      refine ⟨p :: r, ?_, ?_⟩
      · rw [appendAtDate, if_neg hb, hr]
        rfl
      · rw [findPlan, if_neg hb, hf]

theorem mergeOne_sessionsAt (ids : Nat → String) (pid : String)
    (plans : List DailyPlan) (d : Int) (day : SuggestedDay) :
    sessionsAtDate (mergeOne ids pid plans d day) d =
      some ((match findPlan d plans with
             | some q => q.sessions
             | none => []) ++ freshSessions ids day.sessions) := by
  cases hf : findPlan d plans with
  | some q =>
    obtain ⟨r, hr, hfr⟩ :=
      appendAtDate_some d (freshSessions ids day.sessions) plans q hf
    simp only [mergeOne, hr]
    rw [sessionsAtDate, hfr]
    rfl
  | none =>
    have ha := appendAtDate_none d (freshSessions ids day.sessions) plans hf
    simp only [mergeOne, ha]
    rw [sessionsAtDate, findPlan_append_single d plans _ hf]
    simp

theorem sessionCountAt_of_sessions (plans : List DailyPlan) (d : Int)
    (l : List TherapySession) (h : sessionsAtDate plans d = some l) :
    sessionCountAt plans d = l.length := by
  rw [sessionsAtDate] at h
  cases hf : findPlan d plans with
  | none => rw [hf] at h; exact Option.noConfusion h
  | some p =>
    rw [hf] at h
    simp only [Option.map_some'] at h
    have h' : p.sessions = l := Option.some.inj h
    rw [sessionCountAt, hf]
    show p.sessions.length = l.length
    rw [h']

theorem freshSessions_length (ids : Nat → String) (ss : List SuggestedSession) :
    (freshSessions ids ss).length = ss.length := by
  simp [freshSessions]

theorem findIdxAux_mem (sel : Int) :
    ∀ dates : List Int, sel ∈ dates →
      ∃ k, findIdxAux (fun d => d == sel) dates = some k ∧
        dates.get? k = some sel := by
  intro dates
  induction dates with
  | nil => intro h; cases h
  | cons d rest ih =>
    intro h
    by_cases hb : ((d == sel) = true)
    · refine ⟨0, ?_, ?_⟩
      · rw [findIdxAux, if_pos hb]
      · have : d = sel := by simpa using hb
        rw [this]
        rfl
    · have hm : sel ∈ rest := by
        cases h with
        | head => exact absurd (by simp) hb
        | tail _ h' => exact h'
      obtain ⟨k, hk, hg⟩ := ih hm
      refine ⟨k + 1, ?_, hg⟩
      rw [findIdxAux, if_neg hb, hk]
      rfl

theorem handleSuggestAI_one (ids : Nat → Nat → String) (pids : Nat → String)
    (plans : List DailyPlan) (dates : List Int) (sel : Int) (day : SuggestedDay)
    (k : Nat) (hk : findIdxAux (fun d => d == sel) dates = some k)
    (hg : dates.get? k = some sel) :
    handleSuggestAI ids pids plans dates sel [day] =
      mergeOne (ids 0) (pids 0) plans sel day := by
  rw [handleSuggestAI, if_neg (by simp)]
  have hidx : indexOfInt dates sel = (k : Int) := by
    rw [indexOfInt, hk]
  simp only [mergeAll, hidx]
  have hget : getAt dates ((k : Int) + ((0 : Nat) : Int)) = some sel := by
    rw [getAt, if_pos (by positivity)]
    simpa using hg
  simp only [hget]

/-- Claim C3, amended: for a date in the expanded calendar that receives an
AI-suggested day, `handleSuggestAI` appends the suggested sessions
unconditionally — the date's session count always grows by the size of the
suggestion (never skipping on a duplicate therapy name), and an existing
plan keeps its old sessions with the fresh suggested ones appended after
them. -/
theorem handleSuggestAI_appends (ids : Nat → Nat → String) (pids : Nat → String)
    (plans : List DailyPlan) (dates : List Int) (sel : Int) (day : SuggestedDay)
    (q : DailyPlan) :
    sel ∈ dates →
    (sessionCountAt (handleSuggestAI ids pids plans dates sel [day]) sel =
        sessionCountAt plans sel + day.sessions.length ∧
      (findPlan sel plans = some q →
        sessionsAtDate (handleSuggestAI ids pids plans dates sel [day]) sel =
          some (q.sessions ++ freshSessions (ids 0) day.sessions))) := by
  intro hm
  obtain ⟨k, hk, hg⟩ := findIdxAux_mem sel dates hm
  rw [handleSuggestAI_one ids pids plans dates sel day k hk hg]
  have hs := mergeOne_sessionsAt (ids 0) (pids 0) plans sel day
  constructor
  · have hc := sessionCountAt_of_sessions _ sel _ hs
    rw [hc, List.length_append, freshSessions_length]
    have hbase :
        (match findPlan sel plans with
         | some q2 => q2.sessions
         | none => ([] : List TherapySession)).length = sessionCountAt plans sel := by
      cases hf : findPlan sel plans <;> simp [sessionCountAt, hf]
    rw [hbase]
  · intro hq
    rw [hq] at hs
    exact hs

/-- Witness for the amended C3: one suggested Laser Therapy session against a
day that already holds a Laser Therapy session — count goes from 1 to 2. -/
theorem handleSuggestAI_appends_witness :
    (0 : Int) ∈ ([0] : List Int) ∧
    (sessionCountAt
        (handleSuggestAI (fun _ j => "m" ++ toString j) (fun _ => "mp")
          [laserPlan] [0] 0 [laserDay]) 0 =
        sessionCountAt [laserPlan] 0 + laserDay.sessions.length ∧
      (findPlan 0 [laserPlan] = some laserPlan →
        sessionsAtDate
            (handleSuggestAI (fun _ j => "m" ++ toString j) (fun _ => "mp")
              [laserPlan] [0] 0 [laserDay]) 0 =
          some (laserPlan.sessions ++
            freshSessions ((fun _ j => "m" ++ toString j) 0) laserDay.sessions))) :=
  ⟨by decide,
    handleSuggestAI_appends (fun _ j => "m" ++ toString j) (fun _ => "mp")
      [laserPlan] [0] 0 laserDay laserPlan (by decide)⟩

/-- Claim C7: copy-previous-day is a no-op when the selected date is missing
from or first in the expanded calendar, or when the preceding date has no
plan; otherwise the preceding plan's sessions are cloned with supplied fresh
identifiers and status reset to `pending`, the clone list fully replaces the
selected date's session list (creating the plan when absent), and plans for
other dates are untouched. -/
theorem handleCopyPrevious_contract (idSupply : Nat → String)
    (plans : List DailyPlan) (dates : List Int) (selectedDate : Int)
    (k : Nat) (prevDate : Int) (prevPlan : DailyPlan) (j : Nat) (q : DailyPlan) :
    (findIdxAux (fun d => d == selectedDate) dates = none →
        handleCopyPrevious idSupply plans dates selectedDate = plans) ∧
    (findIdxAux (fun d => d == selectedDate) dates = some 0 →
        handleCopyPrevious idSupply plans dates selectedDate = plans) ∧
    (findIdxAux (fun d => d == selectedDate) dates = some (k + 1) →
      dates.get? k = some prevDate →
      findPlan prevDate plans = none →
        handleCopyPrevious idSupply plans dates selectedDate = plans) ∧
    (findIdxAux (fun d => d == selectedDate) dates = some (k + 1) →
      dates.get? k = some prevDate →
      findPlan prevDate plans = some prevPlan →
        (sessionsAtDate (handleCopyPrevious idSupply plans dates selectedDate)
            selectedDate =
          some (prevPlan.sessions.mapIdx (fun i s => cloneSession (idSupply i) s)) ∧
         (plans.get? j = some q → (q.date == selectedDate) = false →
            (handleCopyPrevious idSupply plans dates selectedDate).get? j =
              some q))) := by
  have hne' : ¬ (k + 1 = 0) := by omega
  refine ⟨?_, ?_, ?_, ?_⟩
  · intro h1
    simp only [handleCopyPrevious, h1]
  · intro h1
    simp [handleCopyPrevious, h1]
  · intro h1 h2 h3
    simp only [handleCopyPrevious, h1, if_neg hne', Nat.add_sub_cancel, h2, h3]
  · intro h1 h2 h3
    have hcl := findPlan_replace selectedDate
      (prevPlan.sessions.mapIdx (fun i s => cloneSession (idSupply i) s)) plans
    constructor
    · simp only [handleCopyPrevious, h1, if_neg hne', Nat.add_sub_cancel, h2, h3]
      cases hf : findPlan selectedDate plans with
      | some q0 =>
        rw [hf] at hcl
        rw [if_pos (by rw [hcl]; rfl)]
        rw [sessionsAtDate, hcl]
        rfl
      | none =>
        rw [hf] at hcl
        simp only [Option.map_none'] at hcl
        rw [if_neg (by rw [hcl]; simp)]
        rw [sessionsAtDate, findPlan_append_single _ _ _ hcl]
        simp
    · intro hq hn
      have hcond : ¬ ((q.date == selectedDate) = true) := by
        rw [hn]
        simp
      simp only [handleCopyPrevious, h1, if_neg hne', Nat.add_sub_cancel, h2, h3]
      cases hf : findPlan selectedDate plans with
      | some q0 =>
        rw [hf] at hcl
        rw [if_pos (by rw [hcl]; rfl)]
        rw [List.get?_map, hq]
        simp only [Option.map_some']
        rw [if_neg hcond]
      | none =>
        rw [hf] at hcl
        simp only [Option.map_none'] at hcl
        rw [if_neg (by rw [hcl]; simp)]
        have hjlt : j < plans.length := by
          by_contra hnot
          rw [List.get?_eq_none.mpr (Nat.le_of_not_lt hnot)] at hq
          exact Option.noConfusion hq
        rw [List.get?_append (by rw [List.length_map]; exact hjlt)]
        rw [List.get?_map, hq]
        simp only [Option.map_some']
        rw [if_neg hcond]

/-- The id supply used in the copy-previous witness. -/
def copyIds : Nat → String := fun i => "c" ++ toString i

/-- Witness for C7: calendar `[0, 1]`, selected date 1, previous day 0 holds
the Laser Therapy plan; the clone replaces day 1's plan and day 0's plan is
untouched. -/
theorem handleCopyPrevious_contract_witness :
    findIdxAux (fun d => d == (1 : Int)) [0, 1] = some (0 + 1) ∧
    ([0, 1] : List Int).get? 0 = some 0 ∧
    findPlan 0 [laserPlan] = some laserPlan ∧
    (sessionsAtDate (handleCopyPrevious copyIds [laserPlan] [0, 1] 1) 1 =
        some (laserPlan.sessions.mapIdx (fun i s => cloneSession (copyIds i) s)) ∧
      ([laserPlan].get? 0 = some laserPlan → (laserPlan.date == (1 : Int)) = false →
        (handleCopyPrevious copyIds [laserPlan] [0, 1] 1).get? 0 = some laserPlan)) :=
  ⟨by decide, rfl, rfl,
    (handleCopyPrevious_contract copyIds [laserPlan] [0, 1] 1 0 0 laserPlan 0
        laserPlan).2.2.2 (by decide) rfl rfl⟩
